import Mathlib

/-!
Verification of the Pulse v4 monitoring core against its source.

The definitions below are a shallow embedding of the JavaScript source:
  * `state/monitorState.js` (listing in `SMS_README.md`): `updateStatus`,
    `createIncident`, `createAlert`, `resolveIncidentForMonitor`,
    `getRecipientsForAlert`, `createMonitor` / `deleteMonitor`;
  * `server.js` (`src/unnamed/part_004`): `runCheck`, `stopMonitorInterval`,
    the `monitor:delete` socket handler, and `checkNetworkConnectivity`;
  * `services/notificationService.js` (`src/unnamed/part_000`): `sendSms`,
    `sendSmsBatch` and the SMS stage of `sendAlertNotification`;
  * `monitors/monitorEngine.js`: `checkHttp` and `getSSLInfo`.

JavaScript `Map`s are modelled as association lists in insertion order
(`Map.set` replaces in place, `Map.delete` removes the entry), ISO timestamps
as natural numbers, and `uuidv4()` as a counter drawn from the state.  Logging
side effects (`addLog`, `addActivity`, `console.log`, `saveState`, socket
broadcasts) touch only the log collections and are elided.  JS string fields
where the source only tests truthiness (`c.email && ...`) are modelled as
`String`, with `""` standing for both `null` and the empty string (both are
falsy in JS).
-/

namespace Pulse

/-- `'UP' | 'DOWN'` of a `CheckResult` produced by a probe. -/
inductive UpDown
  | up
  | down
deriving DecidableEq

/-- Stored status value: `'PENDING' | 'UP' | 'DOWN'`. -/
inductive PStatus
  | pending
  | up
  | down
deriving DecidableEq

/-- Coercion of a check outcome into a stored status string. -/
def UpDown.toP : UpDown → PStatus
  | .up => .up
  | .down => .down

/-- `'ongoing' | 'resolved'` of an incident. -/
inductive IStatus
  | ongoing
  | resolved
deriving DecidableEq

/-- `'active' | 'acknowledged' | 'resolved'` of an alert. -/
inductive AStatus
  | active
  | acknowledged
  | resolved
deriving DecidableEq

/-- TLS certificate metadata attached by `getSSLInfo` (monitorEngine.js). -/
structure SslInfo where
  issuer : String
  validFrom : Nat
  validTo : Nat
  daysRemaining : Int
  subject : String
deriving DecidableEq

/-- The normalized result shape produced by every probe (`checkHttp` etc.). -/
structure CheckResult where
  status : UpDown
  responseTime : Nat
  message : String
  statusCode : Option Nat := none
  sslInfo : Option SslInfo := none
deriving DecidableEq

/-- One entry of the bounded per-monitor history ring (`updateStatus`). -/
structure HEntry where
  timestamp : Nat
  status : UpDown
  responseTime : Nat
  message : String
deriving DecidableEq

/-- The stored `Status` record of one monitor (statuses collection). -/
structure MStatus where
  status : PStatus
  responseTime : Option Nat
  message : Option String
  lastCheck : Option Nat
  consecutiveFailures : Nat
  totalChecks : Nat
  successfulChecks : Nat
  history : List HEntry
  sslInfo : Option SslInfo
deriving DecidableEq

/-- One update line inside an incident (`incident.updates`). -/
structure IUpdate where
  timestamp : Nat
  status : String
  message : String
deriving DecidableEq

/-- An `Incident` record (`createIncident` in monitorState.js). -/
structure Incident where
  iid : Nat
  monitorId : Nat
  status : IStatus
  message : String
  startedAt : Nat
  resolvedAt : Option Nat
  duration : Option Nat
  updates : List IUpdate
deriving DecidableEq

/-- An `Alert` record (`createAlert` in monitorState.js). -/
structure Alert where
  aid : Nat
  monitorId : Nat
  atype : String
  message : String
  severity : String
  status : AStatus
  acknowledgedAt : Option Nat
  resolvedAt : Option Nat
  createdAt : Nat
deriving DecidableEq

/-- The settings the state machine consumes (`state.settings`). -/
structure Settings where
  consecutiveFailuresThreshold : Nat
  autoResolve : Bool
deriving DecidableEq

/-- The mutable collections touched by the status/incident/alert machine. -/
structure MState where
  statuses : List (Nat × MStatus)
  incidents : List Incident
  alerts : List Alert
  settings : Settings
  nextId : Nat
deriving DecidableEq

/-- `Map.get`: first entry with the given key. -/
def lookupA {α : Type} (l : List (Nat × α)) (k : Nat) : Option α :=
  (l.find? (fun p => p.1 == k)).map Prod.snd

/-- `Map.set`: replace in place if the key is present, else append. -/
def setA {α : Type} : List (Nat × α) → Nat → α → List (Nat × α)
  | [], k, v => [(k, v)]
  | (k', v') :: rest, k, v =>
      if k' = k then (k, v) :: rest else (k', v') :: setA rest k v

/-- `Map.delete`: drop the entries with the given key. -/
def eraseA {α : Type} (l : List (Nat × α)) (k : Nat) : List (Nat × α) :=
  l.filter (fun p => !(p.1 == k))

/-- The fresh status record both `createMonitor` and the `updateStatus`
default initialize (status `'PENDING'`, all counters zero). -/
def initStatus : MStatus :=
  { status := .pending
    responseTime := none
    message := none
    lastCheck := none
    consecutiveFailures := 0
    totalChecks := 0
    successfulChecks := 0
    history := []
    sslInfo := none }

/-- `createAlert(monitorId, type, message, severity)`: prepend a new alert
with status `'active'` (`state.alerts.unshift(alert)`). -/
def createAlert (st : MState) (mid : Nat) (atype message severity : String)
    (now : Nat) : MState :=
  let alert : Alert :=
    { aid := st.nextId
      monitorId := mid
      atype := atype
      message := message
      severity := severity
      status := .active
      acknowledgedAt := none
      resolvedAt := none
      createdAt := now }
  { st with alerts := alert :: st.alerts, nextId := st.nextId + 1 }

/-- `createIncident(monitorId, message)`: prepend a new ongoing incident and
create the corresponding critical alert. -/
def createIncident (st : MState) (mid : Nat) (message : String)
    (now : Nat) : MState :=
  let incident : Incident :=
    { iid := st.nextId
      monitorId := mid
      status := .ongoing
      message := message
      startedAt := now
      resolvedAt := none
      duration := none
      updates := [⟨now, "started", "Incident detected: " ++ message⟩] }
  createAlert
    { st with incidents := incident :: st.incidents, nextId := st.nextId + 1 }
    mid "incident" message "critical" now

/-- In-place mutation of the first ongoing incident of the monitor, as done
through the object reference returned by `state.incidents.find`. -/
def resolveIncidentList (mid now : Nat) : List Incident → List Incident
  | [] => []
  | i :: rest =>
      if i.monitorId = mid ∧ i.status = .ongoing then
        { i with
            status := .resolved
            resolvedAt := some now
            duration := some (now - i.startedAt)
            updates := i.updates ++ [⟨now, "resolved", "Service recovered"⟩] }
          :: rest
      else
        i :: resolveIncidentList mid now rest

/-- `resolveIncidentForMonitor(monitorId)`: if an ongoing incident exists for
the monitor, mark it resolved (resolve time and duration) and resolve every
active alert of that monitor; otherwise return with no change. -/
def resolveIncidentForMonitor (st : MState) (mid now : Nat) : MState :=
  match st.incidents.find? (fun i => i.monitorId == mid && i.status == IStatus.ongoing) with
  | none => st
  | some _ =>
      { st with
          incidents := resolveIncidentList mid now st.incidents
          alerts := st.alerts.map (fun a =>
            if a.monitorId = mid ∧ a.status = .active then
              { a with status := .resolved, resolvedAt := some now }
            else a) }

/-- The `newStatus` record built by `updateStatus` from the current status
and the incoming sample: counters, bounded history, last-check time. -/
def nextRecord (currentStatus : MStatus) (r : CheckResult)
    (now : Nat) : MStatus :=
  let isUp := r.status = UpDown.up
  let consecutiveFailures :=
    if isUp then 0 else currentStatus.consecutiveFailures + 1
  let historyEntry : HEntry := ⟨now, r.status, r.responseTime, r.message⟩
  let history := (historyEntry :: currentStatus.history).take 100
  { status := r.status.toP
    responseTime := some r.responseTime
    message := some r.message
    lastCheck := some now
    consecutiveFailures := consecutiveFailures
    totalChecks := currentStatus.totalChecks + 1
    successfulChecks :=
      if isUp then currentStatus.successfulChecks + 1
      else currentStatus.successfulChecks
    history := history
    sslInfo := r.sslInfo }

/-- `st1`: the state after `updateStatus` stored the new status record,
before the incident branches run (`state.statuses.set(monitorId, newStatus)`). -/
def withNewStatus (st : MState) (mid : Nat) (r : CheckResult)
    (now : Nat) : MState :=
  { st with
      statuses :=
        setA st.statuses mid
          (nextRecord ((lookupA st.statuses mid).getD initStatus) r now) }

/-- `updateStatus(monitorId, statusData)`: the status/incident/alert state
machine of monitorState.js, lines 1558-1631 of the listing. -/
def updateStatus (st : MState) (mid : Nat) (r : CheckResult)
    (now : Nat) : MState :=
  let currentStatus := (lookupA st.statuses mid).getD initStatus
  let previousStatus := currentStatus.status
  let consecutiveFailures :=
    if r.status = UpDown.up then 0 else currentStatus.consecutiveFailures + 1
  let st1 := withNewStatus st mid r now
  if previousStatus = PStatus.up ∧ r.status = UpDown.down then
    createIncident st1 mid r.message now
  else if previousStatus = PStatus.down ∧ r.status = UpDown.down then
    if st.settings.consecutiveFailuresThreshold ≤ consecutiveFailures then
      match st1.incidents.find? (fun i => i.monitorId == mid && i.status == IStatus.ongoing) with
      | some _ => st1
      | none => createIncident st1 mid r.message now
    else st1
  else if previousStatus = PStatus.down ∧ r.status = UpDown.up ∧
      st.settings.autoResolve = true then
    resolveIncidentForMonitor st1 mid now
  else st1

/-- State with empty collections, as after loading from empty persistence. -/
def initState (s : Settings) : MState :=
  { statuses := [], incidents := [], alerts := [], settings := s, nextId := 0 }

/-- State right after `createMonitor` initialized the monitor's status to the
fresh `'PENDING'` record. -/
def createdState (s : Settings) (mid : Nat) : MState :=
  { initState s with statuses := [(mid, initStatus)] }

/-- Feed a sequence of check results for one monitor through `updateStatus`,
the clock advancing by one per check. -/
def runFrom (st : MState) (mid : Nat) (now : Nat) : List CheckResult → MState
  | [] => st
  | r :: rs => runFrom (updateStatus st mid r now) mid (now + 1) rs

/-- The stored status value of a monitor (`'PENDING'` when absent). -/
def stStatus (st : MState) (mid : Nat) : PStatus :=
  ((lookupA st.statuses mid).getD initStatus).status

/-- The stored consecutive-failure counter of a monitor. -/
def stCF (st : MState) (mid : Nat) : Nat :=
  ((lookupA st.statuses mid).getD initStatus).consecutiveFailures

/-- Number of ongoing incidents recorded for a monitor. -/
def ongoingCount (l : List Incident) (mid : Nat) : Nat :=
  l.countP (fun i => i.monitorId == mid && i.status == IStatus.ongoing)

/-- Number of alerts recorded for a monitor. -/
def alertCount (l : List Alert) (mid : Nat) : Nat :=
  l.countP (fun a => a.monitorId == mid)

/-- A plain UP sample. -/
def upR : CheckResult := { status := .up, responseTime := 10, message := "OK" }

/-- A plain DOWN sample. -/
def downR : CheckResult :=
  { status := .down, responseTime := 0, message := "timeout" }

/-! ### Basic lemmas about the association-list operations -/

theorem lookupA_setA_self {α : Type} (l : List (Nat × α)) (k : Nat) (v : α) :
    lookupA (setA l k v) k = some v := by
  induction l with
  | nil => simp [lookupA, setA]
  | cons p rest ih =>
      obtain ⟨k', v'⟩ := p
      by_cases hk : k' = k
      · subst hk
        simp [lookupA, setA]
      · simpa [lookupA, setA, hk, Ne.symm hk] using ih

theorem lookupA_eraseA_self {α : Type} (l : List (Nat × α)) (k : Nat) :
    lookupA (eraseA l k) k = none := by
  induction l with
  | nil => rfl
  | cons p rest ih =>
      obtain ⟨k', v'⟩ := p
      by_cases hk : k' = k
      · subst hk
        simp only [eraseA, List.filter_cons] at ih ⊢
        simp only [beq_self_eq_true, Bool.not_true, if_neg]
        simpa using ih
      · simp only [eraseA] at ih ⊢
        simp [lookupA, hk, ih]

/-! ### Projection lemmas for the state-machine operations -/

theorem createAlert_statuses (st : MState) (mid : Nat) (a m sev : String)
    (now : Nat) : (createAlert st mid a m sev now).statuses = st.statuses := rfl

theorem createIncident_statuses (st : MState) (mid : Nat) (m : String)
    (now : Nat) : (createIncident st mid m now).statuses = st.statuses := rfl

theorem createAlert_settings (st : MState) (mid : Nat) (a m sev : String)
    (now : Nat) : (createAlert st mid a m sev now).settings = st.settings := rfl

theorem createIncident_settings (st : MState) (mid : Nat) (m : String)
    (now : Nat) : (createIncident st mid m now).settings = st.settings := rfl

theorem resolveIncidentForMonitor_statuses (st : MState) (mid now : Nat) :
    (resolveIncidentForMonitor st mid now).statuses = st.statuses := by
  unfold resolveIncidentForMonitor
  split <;> rfl

theorem resolveIncidentForMonitor_settings (st : MState) (mid now : Nat) :
    (resolveIncidentForMonitor st mid now).settings = st.settings := by
  unfold resolveIncidentForMonitor
  split <;> rfl

theorem updateStatus_statuses (st : MState) (mid : Nat) (r : CheckResult)
    (now : Nat) :
    (updateStatus st mid r now).statuses =
      setA st.statuses mid
        (nextRecord ((lookupA st.statuses mid).getD initStatus) r now) := by
  simp only [updateStatus]
  repeat' split
  all_goals first
    | rfl
    | (rw [resolveIncidentForMonitor_statuses]; rfl)

theorem updateStatus_settings (st : MState) (mid : Nat) (r : CheckResult)
    (now : Nat) : (updateStatus st mid r now).settings = st.settings := by
  simp only [updateStatus]
  repeat' split
  all_goals first
    | rfl
    | (rw [resolveIncidentForMonitor_settings]; rfl)

theorem stStatus_updateStatus (st : MState) (mid : Nat) (r : CheckResult)
    (now : Nat) : stStatus (updateStatus st mid r now) mid = r.status.toP := by
  simp [stStatus, updateStatus_statuses, lookupA_setA_self, nextRecord]

theorem stCF_updateStatus (st : MState) (mid : Nat) (r : CheckResult)
    (now : Nat) :
    stCF (updateStatus st mid r now) mid =
      if r.status = UpDown.up then 0 else stCF st mid + 1 := by
  simp only [stCF, updateStatus_statuses, lookupA_setA_self, Option.getD_some,
    nextRecord]

theorem runFrom_settings (st : MState) (mid now : Nat) (rs : List CheckResult) :
    (runFrom st mid now rs).settings = st.settings := by
  induction rs generalizing st now with
  | nil => rfl
  | cons r rs ih => simp [runFrom, ih, updateStatus_settings]

/-! ### C2: the consecutive-failure counter -/

/-- Length of the trailing run of DOWN samples (number of consecutive DOWN
samples since the last UP sample). -/
def downStreak (rs : List CheckResult) : Nat :=
  (rs.reverse.takeWhile (fun r => r.status == UpDown.down)).length

/-- The counter update applied by `updateStatus`, folded over a sequence. -/
def cfAfter (c : Nat) (rs : List CheckResult) : Nat :=
  rs.foldl (fun c r => if r.status = UpDown.up then 0 else c + 1) c

theorem runFrom_stCF (st : MState) (mid now : Nat) (rs : List CheckResult) :
    stCF (runFrom st mid now rs) mid = cfAfter (stCF st mid) rs := by
  induction rs generalizing st now with
  | nil => rfl
  | cons r rs ih =>
      simp only [runFrom, cfAfter, List.foldl_cons, ih, stCF_updateStatus]

theorem cfAfter_zero (rs : List CheckResult) : cfAfter 0 rs = downStreak rs := by
  induction rs using List.reverseRecOn with
  | nil => rfl
  | append_singleton rs r ih =>
      by_cases hr : r.status = UpDown.up
      · simp [cfAfter, downStreak, List.foldl_append, hr]
      · have hr' : r.status = UpDown.down := by
          cases h : r.status
          · exact absurd h hr
          · rfl
        simp only [cfAfter, List.foldl_append, List.foldl_cons, List.foldl_nil,
          hr, if_false] 
        simp only [downStreak, List.reverse_append, List.reverse_cons,
          List.reverse_nil, List.nil_append, List.cons_append,
          List.takeWhile_cons, hr', List.length_cons]
        simp only [cfAfter] at ih
        simp [ih, downStreak]

theorem stCF_initState (s : Settings) (mid : Nat) : stCF (initState s) mid = 0 := rfl

/-! ### Branch lemmas for `updateStatus` -/

theorem updateStatus_eq_up_down (st : MState) (mid : Nat) (r : CheckResult)
    (now : Nat) (h : stStatus st mid = PStatus.up)
    (hr : r.status = UpDown.down) :
    updateStatus st mid r now =
      createIncident (withNewStatus st mid r now) mid r.message now := by
  simp only [stStatus] at h
  simp [updateStatus, h, hr]

theorem updateStatus_eq_pending (st : MState) (mid : Nat) (r : CheckResult)
    (now : Nat) (h : stStatus st mid = PStatus.pending) :
    updateStatus st mid r now = withNewStatus st mid r now := by
  simp only [stStatus] at h
  simp [updateStatus, h]

theorem updateStatus_eq_up_up (st : MState) (mid : Nat) (r : CheckResult)
    (now : Nat) (h : stStatus st mid = PStatus.up)
    (hr : r.status = UpDown.up) :
    updateStatus st mid r now = withNewStatus st mid r now := by
  simp only [stStatus] at h
  simp [updateStatus, h, hr]

theorem updateStatus_eq_down_down (st : MState) (mid : Nat) (r : CheckResult)
    (now : Nat) (h : stStatus st mid = PStatus.down)
    (hr : r.status = UpDown.down) :
    updateStatus st mid r now =
      if st.settings.consecutiveFailuresThreshold ≤ stCF st mid + 1 then
        match st.incidents.find?
            (fun i => i.monitorId == mid && i.status == IStatus.ongoing) with
        | some _ => withNewStatus st mid r now
        | none => createIncident (withNewStatus st mid r now) mid r.message now
      else withNewStatus st mid r now := by
  simp only [stStatus, stCF] at h ⊢
  simp [updateStatus, h, hr, withNewStatus]

theorem updateStatus_eq_down_up (st : MState) (mid : Nat) (r : CheckResult)
    (now : Nat) (h : stStatus st mid = PStatus.down)
    (hr : r.status = UpDown.up) :
    updateStatus st mid r now =
      if st.settings.autoResolve = true then
        resolveIncidentForMonitor (withNewStatus st mid r now) mid now
      else withNewStatus st mid r now := by
  simp only [stStatus] at h
  by_cases ha : st.settings.autoResolve = true
  · simp [updateStatus, h, hr, ha]
  · simp [updateStatus, h, hr, ha]

/-! ### Incident and alert counting lemmas -/

theorem incidents_createIncident (st : MState) (mid : Nat) (m : String)
    (now : Nat) :
    (createIncident st mid m now).incidents =
      { iid := st.nextId, monitorId := mid, status := .ongoing, message := m,
        startedAt := now, resolvedAt := none, duration := none,
        updates := [⟨now, "started", "Incident detected: " ++ m⟩] }
        :: st.incidents := rfl

theorem alerts_createIncident (st : MState) (mid : Nat) (m : String)
    (now : Nat) :
    (createIncident st mid m now).alerts =
      { aid := st.nextId + 1, monitorId := mid, atype := "incident",
        message := m, severity := "critical", status := .active,
        acknowledgedAt := none, resolvedAt := none, createdAt := now }
        :: st.alerts := rfl

theorem ongoingCount_createIncident (st : MState) (mid : Nat) (m : String)
    (now : Nat) :
    ongoingCount (createIncident st mid m now).incidents mid =
      ongoingCount st.incidents mid + 1 := by
  simp [incidents_createIncident, ongoingCount, List.countP_cons]

theorem alertCount_createIncident (st : MState) (mid : Nat) (m : String)
    (now : Nat) :
    alertCount (createIncident st mid m now).alerts mid =
      alertCount st.alerts mid + 1 := by
  simp [alerts_createIncident, alertCount, List.countP_cons]

theorem resolveIncidentList_of_none (mid now : Nat) (l : List Incident)
    (h : l.find? (fun i => i.monitorId == mid && i.status == IStatus.ongoing)
          = none) :
    resolveIncidentList mid now l = l := by
  induction l with
  | nil => rfl
  | cons i rest ih =>
      rw [List.find?_cons] at h
      rcases hc : (i.monitorId == mid && i.status == IStatus.ongoing) with _ | _
      · rw [hc] at h
        simp only [cond_false] at h
        have hni : ¬(i.monitorId = mid ∧ i.status = IStatus.ongoing) := by
          simpa using hc
        simp [resolveIncidentList, hni, ih h]
      · rw [hc] at h
        simp at h
  
theorem countP_resolveIncidentList (mid now : Nat) (l : List Incident)
    (h : l.countP
        (fun i => i.monitorId == mid && i.status == IStatus.ongoing) ≠ 0) :
    (resolveIncidentList mid now l).countP
        (fun i => i.monitorId == mid && i.status == IStatus.ongoing) =
      l.countP (fun i => i.monitorId == mid && i.status == IStatus.ongoing)
        - 1 := by
  induction l with
  | nil => simp [List.countP_nil] at h
  | cons i rest ih =>
      rcases hc : (i.monitorId == mid && i.status == IStatus.ongoing) with _ | _
      · have hni : ¬(i.monitorId = mid ∧ i.status = IStatus.ongoing) := by
          simpa using hc
        have h2 : rest.countP
            (fun i => i.monitorId == mid && i.status == IStatus.ongoing) ≠ 0 := by
          simpa [List.countP_cons, hc] using h
        simp [resolveIncidentList, hni, List.countP_cons, hc, ih h2]
      · have hyi : i.monitorId = mid ∧ i.status = IStatus.ongoing := by
          simpa using hc
        simp [resolveIncidentList, hyi, List.countP_cons, hc]

theorem mem_resolved_resolveIncidentList (mid now : Nat) (l : List Incident)
    (h : l.countP
        (fun i => i.monitorId == mid && i.status == IStatus.ongoing) ≠ 0) :
    ∃ inc ∈ resolveIncidentList mid now l,
      inc.monitorId = mid ∧ inc.status = IStatus.resolved ∧
      inc.resolvedAt = some now ∧
      inc.duration = some (now - inc.startedAt) := by
  induction l with
  | nil => simp [List.countP_nil] at h
  | cons i rest ih =>
      rcases hc : (i.monitorId == mid && i.status == IStatus.ongoing) with _ | _
      · have hni : ¬(i.monitorId = mid ∧ i.status = IStatus.ongoing) := by
          simpa using hc
        have h2 : rest.countP
            (fun i => i.monitorId == mid && i.status == IStatus.ongoing) ≠ 0 := by
          simpa [List.countP_cons, hc] using h
        obtain ⟨inc, hmem, hp⟩ := ih h2
        exact ⟨inc, by simp [resolveIncidentList, hni, hmem], hp⟩
      · have hyi : i.monitorId = mid ∧ i.status = IStatus.ongoing := by
          simpa using hc
        have hmem : resolveIncidentList mid now (i :: rest) =
            ({ i with
                status := IStatus.resolved
                resolvedAt := some now
                duration := some (now - i.startedAt)
                updates := i.updates
                  ++ [⟨now, "resolved", "Service recovered"⟩] } : Incident)
              :: rest := by
          simp [resolveIncidentList, hyi]
        rw [hmem]
        exact ⟨_, List.mem_cons_self _ _, by simp [hyi.1]⟩

/-! ### Further projection lemmas -/

theorem withNewStatus_incidents (st : MState) (mid : Nat) (r : CheckResult)
    (now : Nat) : (withNewStatus st mid r now).incidents = st.incidents := rfl

theorem withNewStatus_alerts (st : MState) (mid : Nat) (r : CheckResult)
    (now : Nat) : (withNewStatus st mid r now).alerts = st.alerts := rfl

theorem stStatus_withNewStatus (st : MState) (mid : Nat) (r : CheckResult)
    (now : Nat) : stStatus (withNewStatus st mid r now) mid = r.status.toP := by
  simp [stStatus, withNewStatus, lookupA_setA_self, nextRecord]

theorem stStatus_createIncident (st : MState) (mid mid2 : Nat) (m : String)
    (now : Nat) :
    stStatus (createIncident st mid m now) mid2 = stStatus st mid2 := by
  simp [stStatus, createIncident_statuses]

theorem find?_eq_none_iff_countP {α : Type} (p : α → Bool) (l : List α) :
    l.find? p = none ↔ l.countP p = 0 := by
  rw [List.find?_eq_none, List.countP_eq_zero]

theorem countP_ne_zero_of_find? {α : Type} {p : α → Bool} {l : List α}
    {x : α} (h : l.find? p = some x) : l.countP p ≠ 0 := by
  intro h0
  rw [← find?_eq_none_iff_countP] at h0
  rw [h0] at h
  exact Option.noConfusion h

/-! ### C1: the single-ongoing-incident invariant -/

/-- Inductive invariant for the auto-resolve-enabled runs: at most one
ongoing incident, and none at all unless the stored status is DOWN. -/
def InvOne (st : MState) (mid : Nat) : Prop :=
  ongoingCount st.incidents mid ≤ 1 ∧
  (stStatus st mid ≠ PStatus.down → ongoingCount st.incidents mid = 0)

theorem invOne_step (st : MState) (mid : Nat) (r : CheckResult) (now : Nat)
    (har : st.settings.autoResolve = true) (h : InvOne st mid) :
    InvOne (updateStatus st mid r now) mid := by
  obtain ⟨h1, h2⟩ := h
  cases hps : stStatus st mid with
  | pending =>
      have h0 : ongoingCount st.incidents mid = 0 := h2 (by simp [hps])
      rw [updateStatus_eq_pending st mid r now hps]
      refine ⟨?_, fun _ => ?_⟩
      · simp only [ongoingCount, withNewStatus_incidents] at h0 ⊢
        omega
      · simpa [ongoingCount, withNewStatus_incidents] using h0
  | up =>
      have h0 : ongoingCount st.incidents mid = 0 := h2 (by simp [hps])
      cases hr : r.status with
      | up =>
          rw [updateStatus_eq_up_up st mid r now hps hr]
          refine ⟨?_, fun _ => ?_⟩
          · simp only [ongoingCount, withNewStatus_incidents] at h0 ⊢
            omega
          · simpa [ongoingCount, withNewStatus_incidents] using h0
      | down =>
          rw [updateStatus_eq_up_down st mid r now hps hr]
          constructor
          · rw [ongoingCount_createIncident]
            simp only [ongoingCount, withNewStatus_incidents] at h0 ⊢
            omega
          · intro hne
            rw [stStatus_createIncident, stStatus_withNewStatus, hr] at hne
            exact absurd rfl hne
  | down =>
      cases hr : r.status with
      | down =>
          rw [updateStatus_eq_down_down st mid r now hps hr]
          by_cases ht :
            st.settings.consecutiveFailuresThreshold ≤ stCF st mid + 1
          · rw [if_pos ht]
            cases hf : st.incidents.find?
                (fun i => i.monitorId == mid && i.status == IStatus.ongoing) with
            | none =>
                have h0 : ongoingCount st.incidents mid = 0 := by
                  simpa [ongoingCount] using
                    (find?_eq_none_iff_countP _ _).mp hf
                constructor
                · rw [ongoingCount_createIncident]
                  simp only [ongoingCount, withNewStatus_incidents] at h0 ⊢
                  omega
                · intro hne
                  rw [stStatus_createIncident, stStatus_withNewStatus, hr]
                    at hne
                  exact absurd rfl hne
            | some i =>
                constructor
                · simpa [ongoingCount, withNewStatus_incidents] using h1
                · intro hne
                  rw [stStatus_withNewStatus, hr] at hne
                  exact absurd rfl hne
          · rw [if_neg ht]
            constructor
            · simpa [ongoingCount, withNewStatus_incidents] using h1
            · intro hne
              rw [stStatus_withNewStatus, hr] at hne
              exact absurd rfl hne
      | up =>
          rw [updateStatus_eq_down_up st mid r now hps hr, if_pos har]
          cases hf : (withNewStatus st mid r now).incidents.find?
              (fun i => i.monitorId == mid && i.status == IStatus.ongoing) with
          | none =>
              have h0 : ongoingCount st.incidents mid = 0 := by
                have := (find?_eq_none_iff_countP _ _).mp hf
                simpa [ongoingCount, withNewStatus_incidents] using this
              rw [resolveIncidentForMonitor, hf]
              refine ⟨?_, fun _ => ?_⟩
              · simp only [ongoingCount, withNewStatus_incidents] at h0 ⊢
                omega
              · simpa [ongoingCount, withNewStatus_incidents] using h0
          | some i =>
              have hnz : st.incidents.countP
                  (fun i => i.monitorId == mid && i.status == IStatus.ongoing)
                    ≠ 0 := by
                have := countP_ne_zero_of_find? hf
                simpa [withNewStatus_incidents] using this
              have h0 :
                  ongoingCount
                    (resolveIncidentList mid now st.incidents) mid = 0 := by
                have hrc := countP_resolveIncidentList mid now st.incidents hnz
                simp only [ongoingCount] at h1 ⊢
                omega
              rw [resolveIncidentForMonitor, hf]
              refine ⟨?_, fun _ => ?_⟩
              · simp only [ongoingCount, withNewStatus_incidents] at h0 ⊢
                omega
              · simpa [ongoingCount, withNewStatus_incidents] using h0

theorem invOne_runFrom (st : MState) (mid now : Nat) (rs : List CheckResult)
    (har : st.settings.autoResolve = true) (h : InvOne st mid) :
    InvOne (runFrom st mid now rs) mid := by
  induction rs generalizing st now with
  | nil => exact h
  | cons r rs ih =>
      apply ih
      · rw [updateStatus_settings]
        exact har
      · exact invOne_step st mid r now har h

/-- C1, counterexample: starting from UP, with auto-resolve disabled, the
sequence UP, DOWN, UP, DOWN leaves TWO ongoing incidents for the endpoint,
so the at-most-one-ongoing-incident property fails as stated. -/
theorem c1_counterexample :
    ¬ ongoingCount
        (runFrom (initState ⟨3, false⟩) 0 0 [upR, downR, upR, downR]).incidents
        0 ≤ 1 := by decide

/-- C1 (amended): in every run of the state machine with the auto-resolve
setting enabled, at most one ongoing incident exists per endpoint at every
point of the sequence; with auto-resolve disabled an UP to DOWN transition
taken after an unresolved recovery opens a second ongoing incident. -/
theorem c1_amended (t mid now : Nat) (rs : List CheckResult) :
    ongoingCount (runFrom (initState ⟨t, true⟩) mid now rs).incidents mid
      ≤ 1 :=
  (invOne_runFrom (initState ⟨t, true⟩) mid now rs rfl
    ⟨by simp [ongoingCount, initState], fun _ => by
      simp [ongoingCount, initState]⟩).1

/-- C2: the stored consecutive-failure counter is set to 0 on any UP sample
and to the previous value plus one on each DOWN sample, and over any
sequence fed to one endpoint it equals the number of consecutive DOWN
samples since the last UP sample. -/
theorem c2_consecutive_failures :
    (∀ st mid r now,
      stCF (updateStatus st mid r now) mid =
        if r.status = UpDown.up then 0 else stCF st mid + 1) ∧
    (∀ s mid now rs,
      stCF (runFrom (initState s) mid now rs) mid = downStreak rs) := by
  refine ⟨fun st mid r now => stCF_updateStatus st mid r now,
    fun s mid now rs => ?_⟩
  rw [runFrom_stCF, stCF_initState, cfAfter_zero]

/-- C3: whenever `updateStatus` processes a DOWN sample for an endpoint whose
stored status is UP, exactly one new ongoing Incident and exactly one new
active Alert with severity critical are prepended for that endpoint,
whatever the configured consecutive-failure threshold is. -/
theorem c3_up_down_creates_incident (st : MState) (mid : Nat)
    (r : CheckResult) (now : Nat) (h : stStatus st mid = PStatus.up)
    (hr : r.status = UpDown.down) :
    (∃ inc, (updateStatus st mid r now).incidents = inc :: st.incidents ∧
      inc.monitorId = mid ∧ inc.status = IStatus.ongoing) ∧
    (∃ a, (updateStatus st mid r now).alerts = a :: st.alerts ∧
      a.monitorId = mid ∧ a.severity = "critical" ∧
      a.status = AStatus.active) := by
  rw [updateStatus_eq_up_down st mid r now h hr]
  constructor
  · exact ⟨_, by rw [incidents_createIncident, withNewStatus_incidents],
      rfl, rfl⟩
  · exact ⟨_, by rw [alerts_createIncident, withNewStatus_alerts],
      rfl, rfl, rfl⟩

/-- A state whose endpoint 0 is UP, built by running one UP sample from a
fresh store with threshold 3. -/
def stUp3 : MState := runFrom (initState ⟨3, true⟩) 0 0 [upR]

/-- Witness for C3 at a concrete UP state and DOWN sample, with a
consecutive-failure threshold of 3 (greater than 1). -/
theorem c3_witness :
    (∃ inc, (updateStatus stUp3 0 downR 5).incidents = inc :: stUp3.incidents ∧
      inc.monitorId = 0 ∧ inc.status = IStatus.ongoing) ∧
    (∃ a, (updateStatus stUp3 0 downR 5).alerts = a :: stUp3.alerts ∧
      a.monitorId = 0 ∧ a.severity = "critical" ∧
      a.status = AStatus.active) :=
  c3_up_down_creates_incident stUp3 0 downR 5 (by decide) rfl

/-- The `updateStatus` level of the DOWN to UP transition: with auto-resolve
enabled, the endpoint's (unique) ongoing incident is marked resolved with
its resolve time set and its duration computed and every active alert of
the endpoint is resolved; with auto-resolve disabled `updateStatus` changes
neither incidents nor alerts. -/
theorem updateStatus_down_up_resolution (st : MState) (mid : Nat) (r : CheckResult)
    (now : Nat) (h : stStatus st mid = PStatus.down)
    (hr : r.status = UpDown.up) :
    (st.settings.autoResolve = true →
      ongoingCount st.incidents mid = 1 →
        ongoingCount (updateStatus st mid r now).incidents mid = 0 ∧
        (∃ inc ∈ (updateStatus st mid r now).incidents,
          inc.monitorId = mid ∧ inc.status = IStatus.resolved ∧
          inc.resolvedAt = some now ∧
          inc.duration = some (now - inc.startedAt)) ∧
        (∀ a ∈ (updateStatus st mid r now).alerts,
          a.monitorId = mid → a.status ≠ AStatus.active) ∧
        (∀ a ∈ st.alerts, a.monitorId = mid → a.status = AStatus.active →
          ({ a with status := AStatus.resolved, resolvedAt := some now }
              : Alert) ∈ (updateStatus st mid r now).alerts)) ∧
    (st.settings.autoResolve = false →
      (updateStatus st mid r now).incidents = st.incidents ∧
      (updateStatus st mid r now).alerts = st.alerts) := by
  rw [updateStatus_eq_down_up st mid r now h hr]
  constructor
  · intro ha h1
    rw [if_pos ha]
    have hnz2 : st.incidents.countP
        (fun i => i.monitorId == mid && i.status == IStatus.ongoing) ≠ 0 := by
      simp only [ongoingCount] at h1
      omega
    obtain ⟨i, hf⟩ : ∃ i, (withNewStatus st mid r now).incidents.find?
        (fun i => i.monitorId == mid && i.status == IStatus.ongoing)
          = some i := by
      cases hff : (withNewStatus st mid r now).incidents.find?
          (fun i => i.monitorId == mid && i.status == IStatus.ongoing) with
      | none =>
          rw [withNewStatus_incidents, find?_eq_none_iff_countP] at hff
          exact absurd hff hnz2
      | some i => exact ⟨i, rfl⟩
    rw [resolveIncidentForMonitor, hf]
    refine ⟨?_, ?_, ?_, ?_⟩
    · have hrc := countP_resolveIncidentList mid now st.incidents hnz2
      simp only [ongoingCount, withNewStatus_incidents] at h1 ⊢
      omega
    · have := mem_resolved_resolveIncidentList mid now st.incidents hnz2
      simpa [withNewStatus_incidents] using this
    · intro a ha'
      simp only [withNewStatus_alerts, List.mem_map] at ha'
      obtain ⟨b, hb, rfl⟩ := ha'
      by_cases hcond : b.monitorId = mid ∧ b.status = AStatus.active
      · intro _
        simp [hcond]
      · rw [if_neg hcond]
        intro hmid hact
        exact hcond ⟨hmid, hact⟩
    · intro a ha' hmid hact
      simp only [withNewStatus_alerts]
      refine List.mem_map.mpr ⟨a, ha', ?_⟩
      rw [if_pos ⟨hmid, hact⟩]
  · intro ha
    rw [if_neg (by simp [ha])]
    exact ⟨withNewStatus_incidents .., withNewStatus_alerts ..⟩

/-- A state whose endpoint 0 is DOWN with exactly one ongoing incident and
one active alert, built by running UP then DOWN with auto-resolve enabled. -/
def stDownW : MState := runFrom (initState ⟨3, true⟩) 0 0 [upR, downR]

/-! ### C10: a monitor that is DOWN from its very first check -/

/-- `n` consecutive DOWN samples. -/
def downs (n : Nat) : List CheckResult := List.replicate n downR

theorem runFrom_append (st : MState) (mid now : Nat)
    (rs1 rs2 : List CheckResult) :
    runFrom st mid now (rs1 ++ rs2) =
      runFrom (runFrom st mid now rs1) mid (now + rs1.length) rs2 := by
  induction rs1 generalizing st now with
  | nil => simp [runFrom]
  | cons r rs ih =>
      show runFrom (updateStatus st mid r now) mid (now + 1) (rs ++ rs2) =
        runFrom (runFrom (updateStatus st mid r now) mid (now + 1) rs) mid
          (now + (rs.length + 1)) rs2
      rw [ih]
      have hnow : now + 1 + rs.length = now + (rs.length + 1) := by omega
      rw [hnow]

theorem stStatus_createdState (s : Settings) (mid : Nat) :
    stStatus (createdState s mid) mid = PStatus.pending := by
  simp [stStatus, createdState, lookupA, initStatus]

theorem stCF_createdState (s : Settings) (mid : Nat) :
    stCF (createdState s mid) mid = 0 := by
  simp [stCF, createdState, lookupA, initStatus]

theorem stCF_withNewStatus (st : MState) (mid : Nat) (r : CheckResult)
    (now : Nat) :
    stCF (withNewStatus st mid r now) mid =
      if r.status = UpDown.up then 0 else stCF st mid + 1 := by
  simp only [stCF, withNewStatus, lookupA_setA_self, Option.getD_some,
    nextRecord]

theorem stCF_createIncident (st : MState) (mid mid2 : Nat) (m : String)
    (now : Nat) :
    stCF (createIncident st mid m now) mid2 = stCF st mid2 := by
  simp [stCF, createIncident_statuses]

theorem c10_aux (s : Settings) (mid : Nat) :
    ∀ n, 1 ≤ n →
      stStatus (runFrom (createdState s mid) mid 0 (downs n)) mid
          = PStatus.down ∧
      ongoingCount (runFrom (createdState s mid) mid 0 (downs n)).incidents
          mid = (if max 2 s.consecutiveFailuresThreshold ≤ n then 1 else 0) ∧
      alertCount (runFrom (createdState s mid) mid 0 (downs n)).alerts mid
          = (if max 2 s.consecutiveFailuresThreshold ≤ n then 1 else 0) ∧
      stCF (runFrom (createdState s mid) mid 0 (downs n)) mid = n := by
  intro n hn
  induction n, hn using Nat.le_induction with
  | base =>
      have h1 : downs 1 = [downR] := rfl
      rw [h1]
      simp only [runFrom]
      rw [updateStatus_eq_pending _ _ _ _ (stStatus_createdState s mid)]
      have hite : ¬ max 2 s.consecutiveFailuresThreshold ≤ 1 := by
        rw [Nat.max_le]
        omega
      refine ⟨?_, ?_, ?_, ?_⟩
      · rw [stStatus_withNewStatus]
        rfl
      · rw [if_neg hite]
        simp [ongoingCount, withNewStatus_incidents, createdState, initState]
      · rw [if_neg hite]
        simp [alertCount, withNewStatus_alerts, createdState, initState]
      · rw [stCF_withNewStatus, stCF_createdState]
        rfl
  | succ n hn ih =>
      obtain ⟨ih1, ih2, ih3, ih4⟩ := ih
      have hsplit : downs (n + 1) = downs n ++ [downR] := by
        simp [downs, List.replicate_succ']
      rw [hsplit, runFrom_append]
      have hset : (runFrom (createdState s mid) mid 0 (downs n)).settings
          = s := by
        rw [runFrom_settings]
        rfl
      simp only [runFrom]
      rw [updateStatus_eq_down_down _ _ _ _ ih1 rfl]
      rw [hset, ih4]
      by_cases hth : s.consecutiveFailuresThreshold ≤ n + 1
      · rw [if_pos hth]
        by_cases hm : max 2 s.consecutiveFailuresThreshold ≤ n
        · have hc1 : ongoingCount
              (runFrom (createdState s mid) mid 0 (downs n)).incidents mid
                = 1 := by
            rw [ih2, if_pos hm]
          have hnz : (runFrom (createdState s mid) mid 0
              (downs n)).incidents.countP
              (fun i => i.monitorId == mid && i.status == IStatus.ongoing)
                ≠ 0 := by
            simp only [ongoingCount] at hc1
            omega
          obtain ⟨i, hf⟩ : ∃ i,
              (runFrom (createdState s mid) mid 0 (downs n)).incidents.find?
              (fun i => i.monitorId == mid && i.status == IStatus.ongoing)
                = some i := by
            cases hff : (runFrom (createdState s mid) mid 0
                (downs n)).incidents.find?
                (fun i => i.monitorId == mid && i.status == IStatus.ongoing) with
            | none =>
                rw [find?_eq_none_iff_countP] at hff
                exact absurd hff hnz
            | some i => exact ⟨i, rfl⟩
          rw [hf]
          have hm1 : max 2 s.consecutiveFailuresThreshold ≤ n + 1 := by
            omega
          refine ⟨?_, ?_, ?_, ?_⟩
          · rw [stStatus_withNewStatus]
            rfl
          · rw [if_pos hm1]
            simpa [ongoingCount, withNewStatus_incidents] using hc1
          · rw [if_pos hm1]
            rw [if_pos hm] at ih3
            simpa [alertCount, withNewStatus_alerts] using ih3
          · rw [stCF_withNewStatus, ih4]
            rfl
        · have hc0 : ongoingCount
              (runFrom (createdState s mid) mid 0 (downs n)).incidents mid
                = 0 := by
            rw [ih2, if_neg hm]
          have hf : (runFrom (createdState s mid) mid 0
              (downs n)).incidents.find?
              (fun i => i.monitorId == mid && i.status == IStatus.ongoing)
                = none := by
            rw [find?_eq_none_iff_countP]
            simpa [ongoingCount] using hc0
          rw [hf]
          have hm1 : max 2 s.consecutiveFailuresThreshold ≤ n + 1 := by
            rw [Nat.max_le]
            omega
          refine ⟨?_, ?_, ?_, ?_⟩
          · rw [stStatus_createIncident, stStatus_withNewStatus]
            rfl
          · rw [if_pos hm1, ongoingCount_createIncident]
            simp only [ongoingCount, withNewStatus_incidents] at hc0 ⊢
            omega
          · rw [if_pos hm1, alertCount_createIncident]
            have hac : alertCount
                (runFrom (createdState s mid) mid 0 (downs n)).alerts mid
                  = 0 := by
              rw [ih3, if_neg hm]
            simp only [alertCount, withNewStatus_alerts] at hac ⊢
            omega
          · rw [stCF_createIncident, stCF_withNewStatus, ih4]
            rfl
      · rw [if_neg hth]
        have hboth : ¬ max 2 s.consecutiveFailuresThreshold ≤ n + 1 := by
          rw [Nat.max_le]
          omega
        have hboth0 : ¬ max 2 s.consecutiveFailuresThreshold ≤ n := by
          rw [Nat.max_le]
          omega
        refine ⟨?_, ?_, ?_, ?_⟩
        · rw [stStatus_withNewStatus]
          rfl
        · rw [if_neg hboth]
          rw [if_neg hboth0] at ih2
          simpa [ongoingCount, withNewStatus_incidents] using ih2
        · rw [if_neg hboth]
          rw [if_neg hboth0] at ih3
          simpa [alertCount, withNewStatus_alerts] using ih3
        · rw [stCF_withNewStatus, ih4]
          rfl

/-- C10: a freshly created monitor starts as PENDING, so a first DOWN sample
opens no Incident and no Alert (the first-failure rule fires only on UP to
DOWN); a monitor DOWN from its very first check gets its single
Incident/Alert pair exactly once the run of DOWN samples reaches
`max 2 threshold`, i.e. on a DOWN to DOWN step whose consecutive-failure
count has reached the threshold (and not before the second check). -/
theorem c10_pending_first_down (s : Settings) (mid n : Nat) :
    ongoingCount (runFrom (createdState s mid) mid 0 (downs n)).incidents mid
      = (if max 2 s.consecutiveFailuresThreshold ≤ n then 1 else 0) ∧
    alertCount (runFrom (createdState s mid) mid 0 (downs n)).alerts mid
      = (if max 2 s.consecutiveFailuresThreshold ≤ n then 1 else 0) := by
  cases n with
  | zero =>
      have hite : ¬ max 2 s.consecutiveFailuresThreshold ≤ 0 := by
        rw [Nat.max_le]
        omega
      rw [if_neg hite]
      simp [downs, runFrom, createdState, initState, ongoingCount, alertCount]
  | succ n =>
      obtain ⟨_, h2, h3, _⟩ := c10_aux s mid (n + 1) (by omega)
      exact ⟨h2, h3⟩

/-! ### C5: the self-network-reachability check and its cooldown

`checkNetworkConnectivity` (server.js) also creates a NETWORK incident and
alert on every connected-to-disconnected transition, irrespective of the
cooldown; only the notification (`sendNetworkStatusNotification`) is gated.
The step below models the connectivity flag and the notification decision,
which is what C5 is about. -/

/-- Which of the two notifications was sent
(`lastNetworkNotificationType`). -/
inductive NotifKind
  | connected
  | disconnected
deriving DecidableEq

/-- The module-local state of the self-check: `state.networkStatus.isConnected`,
`lastNetworkNotificationTime` and `lastNetworkNotificationType`. -/
structure NetState where
  isConnected : Bool
  lastNotifTime : Nat
  lastNotifType : Option NotifKind
deriving DecidableEq

/-- `NETWORK_NOTIFICATION_COOLDOWN = 60000` milliseconds. -/
def NETWORK_NOTIFICATION_COOLDOWN : Nat := 60000

/-- One tick of `checkNetworkConnectivity`: `observed` is whether the probe
of the tick succeeded, `now` the current time.  Returns the new state and
the notification sent, if any. -/
def netStep (s : NetState) (observed : Bool) (now : Nat) :
    NetState × Option NotifKind :=
  if observed then
    if s.isConnected = false then
      if NETWORK_NOTIFICATION_COOLDOWN < now - s.lastNotifTime ∧
          s.lastNotifType ≠ some NotifKind.connected then
        (⟨true, now, some NotifKind.connected⟩, some NotifKind.connected)
      else ({ s with isConnected := true }, none)
    else ({ s with isConnected := true }, none)
  else
    if s.isConnected = true then
      if NETWORK_NOTIFICATION_COOLDOWN < now - s.lastNotifTime ∧
          s.lastNotifType ≠ some NotifKind.disconnected then
        (⟨false, now, some NotifKind.disconnected⟩,
          some NotifKind.disconnected)
      else ({ s with isConnected := false }, none)
    else ({ s with isConnected := false }, none)

/-- Initial module state: connected, no notification sent yet
(`isConnected: true`, `lastNetworkNotificationTime = 0`,
`lastNetworkNotificationType = null`). -/
def initNet : NetState := ⟨true, 0, none⟩

/-- The notification list contributed by one tick. -/
def emitted (t : Nat) : Option NotifKind → List (Nat × NotifKind)
  | some k => [(t, k)]
  | none => []

/-- Run the self-check over a list of timestamped observations, collecting
the notifications sent. -/
def runNet (s : NetState) : List (Nat × Bool) → List (Nat × NotifKind)
  | [] => []
  | (t, o) :: rest =>
      emitted t (netStep s o t).2 ++ runNet (netStep s o t).1 rest

theorem netStep_same (s : NetState) (o : Bool) (t : Nat)
    (h : s.isConnected = o) : (netStep s o t).2 = none := by
  cases o <;> simp [netStep, h]

theorem netStep_emit (s : NetState) (o : Bool) (t : Nat) (k : NotifKind)
    (h : (netStep s o t).2 = some k) :
    (netStep s o t).1.lastNotifTime = t ∧
    NETWORK_NOTIFICATION_COOLDOWN < t - s.lastNotifTime := by
  unfold netStep at h ⊢
  repeat' split
  all_goals simp_all

theorem netStep_noemit_time (s : NetState) (o : Bool) (t : Nat)
    (h : (netStep s o t).2 = none) :
    (netStep s o t).1.lastNotifTime = s.lastNotifTime := by
  unfold netStep at h ⊢
  repeat' split
  all_goals simp_all

theorem runNet_time_lb (l : List (Nat × Bool)) (s : NetState)
    (hmono : (l.map Prod.fst).Pairwise (· ≤ ·))
    (hge : ∀ p ∈ l, s.lastNotifTime ≤ p.1) :
    ∀ b ∈ runNet s l,
      NETWORK_NOTIFICATION_COOLDOWN < b.1 - s.lastNotifTime := by
  induction l generalizing s with
  | nil => simp [runNet]
  | cons p rest ih =>
      obtain ⟨t, o⟩ := p
      have hmono2 : (rest.map Prod.fst).Pairwise (· ≤ ·) := by
        simp only [List.map_cons, List.pairwise_cons] at hmono
        exact hmono.2
      have hhead : ∀ q ∈ rest, t ≤ q.1 := by
        simp only [List.map_cons, List.pairwise_cons] at hmono
        intro q hq
        exact hmono.1 q.1 (List.mem_map_of_mem Prod.fst hq)
      intro b hb
      rw [runNet, List.mem_append] at hb
      rcases hb with hb1 | hb2
      · cases hk : (netStep s o t).2 with
        | none =>
            rw [hk] at hb1
            simp [emitted] at hb1
        | some k =>
            rw [hk] at hb1
            simp only [emitted, List.mem_singleton] at hb1
            subst hb1
            exact (netStep_emit s o t k hk).2
      · cases hk : (netStep s o t).2 with
        | some k =>
            have h2 := netStep_emit s o t k hk
            have hb3 := ih (netStep s o t).1 hmono2
              (fun q hq => by rw [h2.1]; exact hhead q hq) b hb2
            rw [h2.1] at hb3
            have hsl : s.lastNotifTime ≤ t :=
              hge (t, o) (List.mem_cons_self _ _)
            omega
        | none =>
            have h2 := netStep_noemit_time s o t hk
            have hb3 := ih (netStep s o t).1 hmono2
              (fun q hq => by
                rw [h2]
                exact hge q (List.mem_cons_of_mem _ hq)) b hb2
            rw [h2] at hb3
            exact hb3

theorem runNet_pairwise (l : List (Nat × Bool)) (s : NetState)
    (hmono : (l.map Prod.fst).Pairwise (· ≤ ·))
    (hge : ∀ p ∈ l, s.lastNotifTime ≤ p.1) :
    (runNet s l).Pairwise
      (fun a b => NETWORK_NOTIFICATION_COOLDOWN < b.1 - a.1) := by
  induction l generalizing s with
  | nil => simp [runNet]
  | cons p rest ih =>
      obtain ⟨t, o⟩ := p
      have hmono2 : (rest.map Prod.fst).Pairwise (· ≤ ·) := by
        simp only [List.map_cons, List.pairwise_cons] at hmono
        exact hmono.2
      have hhead : ∀ q ∈ rest, t ≤ q.1 := by
        simp only [List.map_cons, List.pairwise_cons] at hmono
        intro q hq
        exact hmono.1 q.1 (List.mem_map_of_mem Prod.fst hq)
      rw [runNet]
      cases hk : (netStep s o t).2 with
      | none =>
          have h2 := netStep_noemit_time s o t hk
          simp only [emitted, List.nil_append]
          exact ih (netStep s o t).1 hmono2
            (fun q hq => by
              rw [h2]
              exact hge q (List.mem_cons_of_mem _ hq))
      | some k =>
          have h2 := netStep_emit s o t k hk
          simp only [emitted, List.singleton_append, List.pairwise_cons]
          constructor
          · intro b hb
            have := runNet_time_lb rest (netStep s o t).1 hmono2
              (fun q hq => by rw [h2.1]; exact hhead q hq) b hb
            rw [h2.1] at this
            exact this
          · exact ih (netStep s o t).1 hmono2
              (fun q hq => by rw [h2.1]; exact hhead q hq)

/-- C5: the self-check notifies only on an observed connectivity transition
(a tick observing the unchanged state never notifies); over any run with
nondecreasing timestamps, two notifications of the same kind are always
separated by more than the cooldown window; and the concrete scenario of a
disconnect, reconnect and second disconnect within one cooldown window
produces exactly one notification. -/
theorem c5_network_cooldown :
    (∀ (s : NetState) (o : Bool) (t : Nat),
      s.isConnected = o → (netStep s o t).2 = none) ∧
    (∀ l : List (Nat × Bool), (l.map Prod.fst).Pairwise (· ≤ ·) →
      (runNet initNet l).Pairwise
        (fun a b => a.2 = b.2 →
          NETWORK_NOTIFICATION_COOLDOWN < b.1 - a.1)) ∧
    runNet initNet [(100000, false), (100010, true), (100020, false)]
      = [(100000, NotifKind.disconnected)] := by
  refine ⟨netStep_same, ?_, by decide⟩
  intro l hmono
  have hp := runNet_pairwise l initNet hmono (fun p _ => Nat.zero_le _)
  refine List.Pairwise.imp ?_ hp
  intro a b hab
  exact fun _ => hab

/-- Witness for C5: a same-state tick yields no notification, and a concrete
two-notification run with nondecreasing times satisfies the cooldown
separation. -/
theorem c5_witness :
    (netStep initNet true 5).2 = none ∧
    (runNet initNet [(100000, false), (200000, true)]).Pairwise
      (fun a b => a.2 = b.2 →
        NETWORK_NOTIFICATION_COOLDOWN < b.1 - a.1) :=
  ⟨c5_network_cooldown.1 initNet true 5 rfl,
   c5_network_cooldown.2.1 [(100000, false), (200000, true)] (by decide)⟩

/-! ### C6: recipient resolution

`getRecipientsForAlert` (monitorState.js).  A `Contact` as stored in
`state.contacts`; `email` and `phone` are `String`s where `""` models both
JS `null` and the empty string (the source only tests truthiness). -/

structure Contact where
  cid : Nat
  email : String
  phone : String
  notifyEmail : Bool
  notifySms : Bool
  notifyOnDown : Bool
  notifyOnUp : Bool
  notifyOnIncident : Bool
deriving DecidableEq

/-- A `ContactGroup`: member contact ids (`group.contactIds`, always an
array here, so the source's `Array.isArray` guard is vacuous). -/
structure ContactGroup where
  gid : Nat
  contactIds : List Nat
deriving DecidableEq

/-- The per-contact filter used by both loops of `getRecipientsForAlert`:
`contact.notifyOnDown || contact.notifyOnUp || contact.notifyOnIncident`. -/
def wantsAlert (c : Contact) : Bool :=
  c.notifyOnDown || c.notifyOnUp || c.notifyOnIncident

/-- The result shape of `getRecipientsForAlert`. -/
structure Recipients where
  emailRecipients : List Contact
  smsRecipients : List Contact
  allRecipients : List Contact
deriving DecidableEq

/-- The body of the group-expansion loop: look the member id up in the
contacts collection and insert it into the recipient map if it wants
notifications. -/
def groupStep (contacts : List Contact) (m2 : List (Nat × Contact))
    (cid : Nat) : List (Nat × Contact) :=
  match contacts.find? (fun c => c.cid == cid) with
  | some c => if wantsAlert c then setA m2 c.cid c else m2
  | none => m2

/-- `getRecipientsForAlert()`: direct contacts wanting notifications are
inserted into a map keyed by contact id, then every group member found in
the contacts collection is inserted into the same map; the map values are
split into email and SMS recipients by per-contact channel flags. -/
def getRecipientsForAlert (contacts : List Contact)
    (groups : List ContactGroup) : Recipients :=
  let m1 := contacts.foldl
    (fun m c => if wantsAlert c then setA m c.cid c else m)
    ([] : List (Nat × Contact))
  let m2 := groups.foldl
    (fun m g => g.contactIds.foldl (groupStep contacts) m) m1
  let allRecipients := m2.map Prod.snd
  { emailRecipients :=
      allRecipients.filter (fun c => c.email != "" && c.notifyEmail)
    smsRecipients :=
      allRecipients.filter (fun c => c.phone != "" && c.notifySms)
    allRecipients := allRecipients }

theorem setA_not_mem {α : Type} (m : List (Nat × α)) (k : Nat) (v : α)
    (h : k ∉ m.map Prod.fst) : setA m k v = m ++ [(k, v)] := by
  induction m with
  | nil => rfl
  | cons p rest ih =>
      obtain ⟨k2, v2⟩ := p
      simp only [List.map_cons, List.mem_cons] at h
      push_neg at h
      rw [setA, if_neg (fun hh => h.1 hh.symm)]
      rw [ih h.2]
      rfl

theorem setA_mem_self {α : Type} (m : List (Nat × α)) (k : Nat) (v : α)
    (hmem : (k, v) ∈ m) (hnd : (m.map Prod.fst).Nodup) : setA m k v = m := by
  induction m with
  | nil => simp at hmem
  | cons p rest ih =>
      obtain ⟨k2, v2⟩ := p
      simp only [List.map_cons, List.nodup_cons] at hnd
      rcases List.mem_cons.mp hmem with heq | hmem2
      · have h1 : k2 = k := (congrArg Prod.fst heq).symm
        have h2 : v2 = v := (congrArg Prod.snd heq).symm
        rw [setA, if_pos h1, h1, h2]
      · have hk : k2 ≠ k := by
          intro hh
          subst hh
          exact hnd.1 (List.mem_map_of_mem Prod.fst hmem2)
        rw [setA, if_neg hk, ih hmem2 hnd.2]

theorem foldl_direct (cs : List Contact) (acc : List (Nat × Contact))
    (hacc : (acc.map Prod.fst).Nodup)
    (hcs : (cs.map Contact.cid).Nodup)
    (hdisj : ∀ c ∈ cs, c.cid ∉ acc.map Prod.fst) :
    cs.foldl (fun m c => if wantsAlert c then setA m c.cid c else m) acc =
      acc ++ (cs.filter wantsAlert).map (fun c => (c.cid, c)) := by
  induction cs generalizing acc with
  | nil => simp
  | cons c cs ih =>
      simp only [List.map_cons, List.nodup_cons] at hcs
      simp only [List.foldl_cons]
      cases hw : wantsAlert c with
      | false =>
          rw [if_neg (by simp [hw])]
          rw [ih acc hacc hcs.2
            (fun d hd => hdisj d (List.mem_cons_of_mem _ hd))]
          simp [List.filter_cons, hw]
      | true =>
          rw [if_pos (by simp [hw])]
          rw [setA_not_mem acc c.cid c (hdisj c (List.mem_cons_self _ _))]
          have hacc2 : ((acc ++ [(c.cid, c)]).map Prod.fst).Nodup := by
            simp only [List.map_append, List.map_cons, List.map_nil]
            rw [List.nodup_append]
            refine ⟨hacc, List.nodup_singleton _, ?_⟩
            intro x hx hx2
            simp only [List.mem_singleton] at hx2
            subst hx2
            exact hdisj c (List.mem_cons_self _ _) hx
          have hdisj2 : ∀ d ∈ cs,
              d.cid ∉ (acc ++ [(c.cid, c)]).map Prod.fst := by
            intro d hd
            simp only [List.map_append, List.map_cons, List.map_nil,
              List.mem_append, List.mem_singleton]
            push_neg
            refine ⟨hdisj d (List.mem_cons_of_mem _ hd), ?_⟩
            intro hh
            exact hcs.1 (hh ▸ List.mem_map_of_mem Contact.cid hd)
          rw [ih (acc ++ [(c.cid, c)]) hacc2 hcs.2 hdisj2]
          simp [List.filter_cons, hw]

theorem groupStep_noop (contacts : List Contact)
    (m : List (Nat × Contact))
    (hmem : ∀ c ∈ contacts, wantsAlert c = true → (c.cid, c) ∈ m)
    (hkeys : (m.map Prod.fst).Nodup) (cid : Nat) :
    groupStep contacts m cid = m := by
  unfold groupStep
  cases hfind : contacts.find? (fun c => c.cid == cid) with
  | none => rfl
  | some c =>
      show (if wantsAlert c then setA m c.cid c else m) = m
      cases hw : wantsAlert c with
      | false => rw [if_neg (by simp [hw])]
      | true =>
          rw [if_pos (by simp [hw])]
          exact setA_mem_self m c.cid c
            (hmem c (List.mem_of_find?_eq_some hfind) hw) hkeys

theorem foldl_group_noop (contacts : List Contact)
    (m : List (Nat × Contact))
    (hmem : ∀ c ∈ contacts, wantsAlert c = true → (c.cid, c) ∈ m)
    (hkeys : (m.map Prod.fst).Nodup) (ids : List Nat) :
    ids.foldl (groupStep contacts) m = m := by
  induction ids with
  | nil => rfl
  | cons cid ids ih =>
      simp only [List.foldl_cons, groupStep_noop contacts m hmem hkeys cid]
      exact ih

theorem allRecipients_eq (contacts : List Contact)
    (groups : List ContactGroup)
    (hnd : (contacts.map Contact.cid).Nodup) :
    (getRecipientsForAlert contacts groups).allRecipients =
      contacts.filter wantsAlert := by
  have hm1 : contacts.foldl
      (fun m c => if wantsAlert c then setA m c.cid c else m)
      ([] : List (Nat × Contact)) =
      (contacts.filter wantsAlert).map (fun c => (c.cid, c)) := by
    rw [foldl_direct contacts [] (by simp) hnd (by simp)]
    rfl
  have hkeys : (((contacts.filter wantsAlert).map
      (fun c => (c.cid, c))).map Prod.fst).Nodup := by
    rw [List.map_map]
    have hsub : List.Sublist
        ((contacts.filter wantsAlert).map Contact.cid)
        (contacts.map Contact.cid) :=
      (List.filter_sublist contacts).map Contact.cid
    exact hnd.sublist hsub
  have hmem : ∀ c ∈ contacts, wantsAlert c = true →
      (c.cid, c) ∈ (contacts.filter wantsAlert).map
        (fun c => (c.cid, c)) := by
    intro c hc hw
    exact List.mem_map_of_mem _ (List.mem_filter.mpr ⟨hc, hw⟩)
  have hm2 : groups.foldl
      (fun m g => g.contactIds.foldl (groupStep contacts) m)
      ((contacts.filter wantsAlert).map (fun c => (c.cid, c))) =
      (contacts.filter wantsAlert).map (fun c => (c.cid, c)) := by
    induction groups with
    | nil => rfl
    | cons g gs ih =>
        simp only [List.foldl_cons]
        rw [foldl_group_noop contacts _ hmem hkeys g.contactIds]
        exact ih
  have hshape : (getRecipientsForAlert contacts groups).allRecipients =
      (groups.foldl (fun m g => g.contactIds.foldl (groupStep contacts) m)
        (contacts.foldl
          (fun m c => if wantsAlert c then setA m c.cid c else m)
          ([] : List (Nat × Contact)))).map Prod.snd := rfl
  rw [hshape, hm1, hm2, List.map_map]
  have hcomp : (Prod.snd ∘ fun c : Contact => (c.cid, c)) = id := rfl
  rw [hcomp, List.map_id]

/-- C6: recipient resolution is a pure function (two calls on unchanged data
return the identical result); the result does not depend on the contact
groups at all (in particular it is independent of group order and of
overlaps, since every notifiable contact is already inserted by the direct
pass and map insertion keyed by contact id deduplicates); each contact id
occurs at most once in the output; and a contact is in the output exactly
when it is a stored contact with some notify-on flag set. -/
theorem c6_recipient_resolution (contacts : List Contact)
    (groups : List ContactGroup)
    (hnd : (contacts.map Contact.cid).Nodup) :
    (getRecipientsForAlert contacts groups
      = getRecipientsForAlert contacts groups) ∧
    (∀ groups2, getRecipientsForAlert contacts groups
      = getRecipientsForAlert contacts groups2) ∧
    ((getRecipientsForAlert contacts groups).allRecipients.map
      Contact.cid).Nodup ∧
    (∀ c, c ∈ (getRecipientsForAlert contacts groups).allRecipients ↔
      (c ∈ contacts ∧ wantsAlert c = true)) := by
  have hall := allRecipients_eq contacts groups hnd
  have hshape : ∀ gs : List ContactGroup,
      getRecipientsForAlert contacts gs =
        { emailRecipients :=
            (getRecipientsForAlert contacts gs).allRecipients.filter
              (fun c => c.email != "" && c.notifyEmail)
          smsRecipients :=
            (getRecipientsForAlert contacts gs).allRecipients.filter
              (fun c => c.phone != "" && c.notifySms)
          allRecipients :=
            (getRecipientsForAlert contacts gs).allRecipients } :=
    fun _ => rfl
  refine ⟨rfl, ?_, ?_, ?_⟩
  · intro groups2
    have hall2 := allRecipients_eq contacts groups2 hnd
    rw [hshape groups, hshape groups2, hall, hall2]
  · rw [hall]
    have hsub : List.Sublist
        ((contacts.filter wantsAlert).map Contact.cid)
        (contacts.map Contact.cid) :=
      (List.filter_sublist contacts).map Contact.cid
    exact hnd.sublist hsub
  · intro c
    rw [hall, List.mem_filter]

/-- Two contacts, the second reachable directly and through two overlapping
groups. -/
def contactsW : List Contact :=
  [⟨1, "a@x", "111", true, true, true, false, false⟩,
   ⟨2, "b@x", "222", true, true, false, true, false⟩]

/-- Two overlapping groups both containing contact 2. -/
def groupsW : List ContactGroup := [⟨10, [1, 2]⟩, ⟨11, [2]⟩]

/-- Witness for C6 at a concrete store with overlapping groups. -/
theorem c6_witness :
    (getRecipientsForAlert contactsW groupsW
      = getRecipientsForAlert contactsW groupsW) ∧
    (∀ groups2, getRecipientsForAlert contactsW groupsW
      = getRecipientsForAlert contactsW groups2) ∧
    ((getRecipientsForAlert contactsW groupsW).allRecipients.map
      Contact.cid).Nodup ∧
    (∀ c, c ∈ (getRecipientsForAlert contactsW groupsW).allRecipients ↔
      (c ∈ contactsW ∧ wantsAlert c = true)) :=
  c6_recipient_resolution contactsW groupsW (by decide)

/-! ### C7: one batched SMS request

`sendSms` / `sendSmsBatch` and the SMS stage of `sendAlertNotification`
(notificationService.js).  The functions below return the list of outbound
mNotify API requests the call performs; the email and TTS stages of
`sendAlertNotification` are independent of the SMS stage and perform no SMS
requests. -/

/-- The settings consumed by the SMS path. -/
structure SmsSettings where
  smsEnabled : Bool
  smsSenderId : String
deriving DecidableEq

/-- One outbound `POST` body to the mNotify endpoint. -/
structure SmsRequest where
  recipient : List String
  sender : String
  message : String
deriving DecidableEq

/-- `sendSms(phone, message)`: skipped when SMS is disabled, otherwise one
single request whose `recipient` array holds all the phone numbers. -/
def sendSms (settings : SmsSettings) (phones : List String)
    (message : String) : List SmsRequest :=
  if settings.smsEnabled = false then []
  else
    [{ recipient := phones
       sender :=
         if settings.smsSenderId != "" then settings.smsSenderId
         else "PulseMonitor"
       message := message }]

/-- `sendSmsBatch(phones, message)`: guards on SMS being enabled and the
phone list being a nonempty array, then sends to all phones at once. -/
def sendSmsBatch (settings : SmsSettings) (phones : List String)
    (message : String) : List SmsRequest :=
  if settings.smsEnabled = false then []
  else if phones.isEmpty then []
  else sendSms settings phones message

/-- The SMS stage of `sendAlertNotification`: resolve recipients, collect
their (truthy) phone numbers and make one batched call. -/
def smsStage (settings : SmsSettings) (contacts : List Contact)
    (groups : List ContactGroup) (smsText : String) : List SmsRequest :=
  if settings.smsEnabled
      && !(getRecipientsForAlert contacts groups).smsRecipients.isEmpty then
    if !(((getRecipientsForAlert contacts groups).smsRecipients.map
        Contact.phone).filter (fun p => p != "")).isEmpty then
      sendSmsBatch settings
        (((getRecipientsForAlert contacts groups).smsRecipients.map
          Contact.phone).filter (fun p => p != ""))
        smsText
    else []
  else []

/-- C7: with SMS enabled and at least one SMS-eligible recipient, the
dispatcher performs exactly one outbound SMS request, and its recipient
list is the phone number of every SMS-eligible recipient (same count, not
one request per recipient). -/
theorem c7_single_batched_sms (settings : SmsSettings)
    (contacts : List Contact) (groups : List ContactGroup) (msg : String)
    (hs : settings.smsEnabled = true)
    (hn : (getRecipientsForAlert contacts groups).smsRecipients ≠ []) :
    ∃ req, smsStage settings contacts groups msg = [req] ∧
      req.recipient =
        (getRecipientsForAlert contacts groups).smsRecipients.map
          Contact.phone ∧
      req.recipient.length =
        (getRecipientsForAlert contacts groups).smsRecipients.length := by
  have hr : (getRecipientsForAlert contacts groups).smsRecipients =
      (getRecipientsForAlert contacts groups).allRecipients.filter
        (fun c => c.phone != "" && c.notifySms) := rfl
  have hphones : ∀ c ∈ (getRecipientsForAlert contacts groups).smsRecipients,
      (c.phone != "") = true := by
    intro c hc
    rw [hr] at hc
    have h2 := (List.mem_filter.mp hc).2
    simp only [Bool.and_eq_true] at h2
    exact h2.1
  have hful : (((getRecipientsForAlert contacts groups).smsRecipients.map
      Contact.phone).filter (fun p => p != "")) =
      (getRecipientsForAlert contacts groups).smsRecipients.map
        Contact.phone := by
    rw [List.filter_eq_self]
    intro p hp
    obtain ⟨c, hc, rfl⟩ := List.mem_map.mp hp
    exact hphones c hc
  have hcond : (settings.smsEnabled
      && !(getRecipientsForAlert contacts groups).smsRecipients.isEmpty)
        = true := by
    rw [hs]
    simp [hn]
  have hpne : (!(((getRecipientsForAlert contacts groups).smsRecipients.map
      Contact.phone).filter (fun p => p != "")).isEmpty) = true := by
    rw [hful]
    simp [hn]
  rw [smsStage, if_pos hcond, if_pos hpne, hful]
  rw [sendSmsBatch, if_neg (by simp [hs]), if_neg (by simp [hn])]
  rw [sendSms, if_neg (by simp [hs])]
  exact ⟨_, rfl, rfl, List.length_map _ _⟩

/-- Three SMS-eligible contacts. -/
def contacts3W : List Contact :=
  [⟨1, "", "0241", false, true, true, false, false⟩,
   ⟨2, "", "0242", false, true, true, false, false⟩,
   ⟨3, "", "0243", false, true, true, false, false⟩]

/-- Witness for C7: three SMS-eligible recipients produce exactly one
request carrying all three numbers. -/
theorem c7_witness :
    ∃ req, smsStage ⟨true, "PulseMon"⟩ contacts3W [] "alert" = [req] ∧
      req.recipient =
        (getRecipientsForAlert contacts3W []).smsRecipients.map
          Contact.phone ∧
      req.recipient.length =
        (getRecipientsForAlert contacts3W []).smsRecipients.length :=
  c7_single_batched_sms ⟨true, "PulseMon"⟩ contacts3W [] "alert" rfl
    (by decide)

/-! ### C8: the HTTP/HTTPS probe

`checkHttp` and `getSSLInfo` (monitorEngine.js).  The network is
externalized: `resp` is the axios response when the request resolved
(`none` when it threw), `rt` the elapsed time, `errMsg` the thrown error's
code or message, and `ssl` the value `getSSLInfo` resolved with.
`getSSLInfo` never rejects: every failure path (connect error, timeout, no
certificate, bad URL) resolves with `null`, which is exactly the `none`
case of the `ssl` argument. -/

/-- `monitor.expectedStatus` as the source normalizes it: absent, a number,
or an array whose first element is used; every falsy stage defaults to
200 (`monitor.expectedStatus || 200`, then `expectedStatus[0] || 200`). -/
inductive ExpectedStatusCfg
  | unset
  | num (n : Nat)
  | arr (l : List Nat)
deriving DecidableEq

/-- The effective expected status after both defaulting steps. -/
def effectiveExpectedStatus : ExpectedStatusCfg → Nat
  | .unset => 200
  | .num n => if n = 0 then 200 else n
  | .arr l =>
      match l.head? with
      | some n => if n = 0 then 200 else n
      | none => 200

/-- The monitor fields `checkHttp` reads; `expectedContent` is a `String`
with `""` for both `null` and the empty string (the source tests
truthiness). -/
structure HttpMonitor where
  url : String
  expectedStatus : ExpectedStatusCfg
  expectedContent : String
deriving DecidableEq

/-- An axios response: status code and (optional) body. -/
structure HttpResponse where
  status : Nat
  body : Option String
deriving DecidableEq

/-- `String.includes` of JS: substring containment. -/
def strContains (b pat : String) : Bool :=
  decide (List.IsInfix pat.toList b.toList)

/-- `checkHttp(monitor)` with the network call externalized. -/
def checkHttp (m : HttpMonitor) (resp : Option HttpResponse)
    (ssl : Option SslInfo) (rt : Nat) (errMsg : String) : CheckResult :=
  match resp with
  | none => { status := .down, responseTime := rt, message := errMsg }
  | some r =>
      let expected := effectiveExpectedStatus m.expectedStatus
      let statusOk := r.status == expected
      let contentOk :=
        if m.expectedContent != "" && statusOk then
          match r.body with
          | some b => strContains b m.expectedContent
          | none => false
        else true
      let isUp := statusOk && contentOk
      { status := if isUp then .up else .down
        responseTime := rt
        message :=
          if isUp then "HTTP " ++ toString r.status ++ " OK"
          else "HTTP " ++ toString r.status ++
            (if contentOk = false then " (content mismatch)" else "")
        statusCode := some r.status
        sslInfo := if m.url.startsWith "https://" then ssl else none }

/-- C8: the probe reports UP exactly when the response arrived with the
expected status (default 200) and, if an expected-content substring is
configured, the body contains it; and the TLS-metadata value never changes
the UP/DOWN outcome (in particular a failed fetch, `ssl = none`, gives the
same outcome as any successful one). -/
theorem c8_checkHttp (m : HttpMonitor) (resp : Option HttpResponse)
    (ssl : Option SslInfo) (rt : Nat) (errMsg : String) :
    ((checkHttp m resp ssl rt errMsg).status = UpDown.up ↔
      (∃ r, resp = some r ∧
        r.status = effectiveExpectedStatus m.expectedStatus ∧
        (m.expectedContent ≠ "" →
          ∃ b, r.body = some b ∧
            strContains b m.expectedContent = true))) ∧
    (∀ ssl2, (checkHttp m resp ssl2 rt errMsg).status =
      (checkHttp m resp ssl rt errMsg).status) ∧
    effectiveExpectedStatus ExpectedStatusCfg.unset = 200 := by
  refine ⟨?_, ?_, rfl⟩
  · cases resp with
    | none => simp [checkHttp]
    | some r =>
        by_cases hst : r.status = effectiveExpectedStatus m.expectedStatus
        · by_cases hec : m.expectedContent = ""
          · simp [checkHttp, hst, hec]
          · cases hb : r.body with
            | none => simp [checkHttp, hst, hec, hb]
            | some b =>
                cases hc : strContains b m.expectedContent with
                | false => simp [checkHttp, hst, hec, hb, hc]
                | true => simp [checkHttp, hst, hec, hb, hc]
        · simp [checkHttp, hst]
  · intro ssl2
    cases resp <;> rfl

/-! ### C9: deleting a monitor versus its timer and in-flight check

The `monitor:delete` socket handler calls `stopMonitorInterval(id)` and then
`state.deleteMonitor(id)` (which removes the monitor and its status entry).
`runCheck` reads the monitor, returns at once when it does not exist, and
otherwise awaits the probe; when the probe completes it calls
`state.updateStatus(monitorId, result)` without re-checking that the
monitor still exists, and `updateStatus` writes the statuses entry
unconditionally.  The events below model exactly this: `startCheck` is the
prefix of `runCheck` up to and including the existence guard, and
`completeCheck` is the continuation after the awaited probe. -/

/-- The monitor fields relevant here. -/
structure MonitorRec where
  mid : Nat
  enabled : Bool
deriving DecidableEq

/-- Server state: the persistent collections plus the module-local
`monitorIntervals` map (as the set of ids with a live timer) and the
checks currently in flight past `runCheck`'s existence guard. -/
structure World where
  core : MState
  monitors : List (Nat × MonitorRec)
  timers : List Nat
  inflight : List (Nat × CheckResult)
deriving DecidableEq

/-- `stopMonitorInterval(monitorId)`: clear and drop the interval. -/
def stopMonitorInterval (w : World) (mid : Nat) : World :=
  { w with timers := w.timers.filter (fun t => !(t == mid)) }

/-- `deleteMonitor(id)` of monitorState.js: remove the monitor and its
status entry; no-op (returning false) when the monitor does not exist. -/
def deleteMonitorW (w : World) (mid : Nat) : World :=
  match lookupA w.monitors mid with
  | none => w
  | some _ =>
      { w with
          monitors := eraseA w.monitors mid
          core := { w.core with statuses := eraseA w.core.statuses mid } }

/-- The `monitor:delete` handler: stop the interval, then delete. -/
def socketMonitorDelete (w : World) (mid : Nat) : World :=
  deleteMonitorW (stopMonitorInterval w mid) mid

/-- The start of `runCheck`: if the monitor is gone, return without doing
anything; otherwise the probe (with its eventual result `r`) goes in
flight. -/
def startCheck (w : World) (mid : Nat) (r : CheckResult) : World :=
  match lookupA w.monitors mid with
  | none => w
  | some _ => { w with inflight := (mid, r) :: w.inflight }

/-- The continuation of `runCheck` after the awaited probe settles: apply
`updateStatus` with the probe's result, with no further existence check. -/
def completeCheck (w : World) (mid now : Nat) : World :=
  match w.inflight.find? (fun p => p.1 == mid) with
  | none => w
  | some p =>
      { w with
          inflight := w.inflight.eraseP (fun q => q.1 == mid)
          core := updateStatus w.core mid p.2 now }

/-- A world with one enabled monitor (id 1), its timer running, no check in
flight. -/
def w0 : World :=
  { core := createdState ⟨3, true⟩ 1
    monitors := [(1, ⟨1, true⟩)]
    timers := [1]
    inflight := [] }

/-- C9, counterexample: a check of monitor 1 goes in flight, the monitor is
deleted (timer stopped, status entry removed), and then the in-flight probe
completes: a Status is recorded under the deleted id again, although the
claim says no Status update is recorded after the deletion. -/
theorem c9_counterexample :
    (lookupA (socketMonitorDelete (startCheck w0 1 downR) 1).core.statuses 1
        = none ∧
      (socketMonitorDelete (startCheck w0 1 downR) 1).timers = []) ∧
    (lookupA (completeCheck (socketMonitorDelete (startCheck w0 1 downR) 1)
        1 7).core.statuses 1).isSome = true := by decide

theorem deleteMonitorW_timers (w : World) (mid : Nat) :
    (deleteMonitorW w mid).timers = w.timers := by
  unfold deleteMonitorW
  split <;> rfl

/-- C9 (amended): deleting an existing monitor stops its recurring timer
and removes its monitor and Status entries, and a check that STARTS after
the deletion is a no-op (the existence guard at the top of `runCheck`
fails), so the timer can record nothing further; but a check already past
the guard and in flight at deletion time still records a Status under the
deleted id when it completes. -/
theorem c9_amended (w : World) (mid now : Nat) (r : CheckResult)
    (hm : (lookupA w.monitors mid).isSome = true) :
    mid ∉ (socketMonitorDelete w mid).timers ∧
    lookupA (socketMonitorDelete w mid).monitors mid = none ∧
    lookupA (socketMonitorDelete w mid).core.statuses mid = none ∧
    (∀ w2 : World, lookupA w2.monitors mid = none →
      startCheck w2 mid r = w2) ∧
    (∀ w2 : World,
      w2.inflight.find? (fun p => p.1 == mid) = some (mid, r) →
      (lookupA (completeCheck w2 mid now).core.statuses mid).isSome
        = true) := by
  obtain ⟨mrec, hmr⟩ := Option.isSome_iff_exists.mp hm
  have hstop : (stopMonitorInterval w mid).monitors = w.monitors := rfl
  refine ⟨?_, ?_, ?_, ?_, ?_⟩
  · rw [socketMonitorDelete, deleteMonitorW_timers]
    simp [stopMonitorInterval, List.mem_filter]
  · rw [socketMonitorDelete, deleteMonitorW, hstop, hmr]
    exact lookupA_eraseA_self w.monitors mid
  · rw [socketMonitorDelete, deleteMonitorW, hstop, hmr]
    exact lookupA_eraseA_self w.core.statuses mid
  · intro w2 h2
    rw [startCheck, h2]
  · intro w2 h2
    rw [completeCheck, h2]
    simp only [updateStatus_statuses, lookupA_setA_self, Option.isSome_some]

/-- Witness for C9 (amended) at the concrete one-monitor world. -/
theorem c9_witness :
    1 ∉ (socketMonitorDelete w0 1).timers ∧
    lookupA (socketMonitorDelete w0 1).monitors 1 = none ∧
    lookupA (socketMonitorDelete w0 1).core.statuses 1 = none ∧
    (∀ w2 : World, lookupA w2.monitors 1 = none →
      startCheck w2 1 downR = w2) ∧
    (∀ w2 : World,
      w2.inflight.find? (fun p => p.1 == 1) = some (1, downR) →
      (lookupA (completeCheck w2 1 9).core.statuses 1).isSome = true) :=
  c9_amended w0 1 9 downR (by decide)

/-! ### C4 at the `runCheck` level

`runCheck` (server.js) reads the previous status, applies `updateStatus`,
and on a status change with result UP and previous status DOWN it finds the
first active alert of the monitor and sets it resolved (to attach it to the
recovery notification) — with no auto-resolve check.  On a change to DOWN it
only reads alerts to send the notification. -/

/-- The in-place mutation of the first active alert found by
`state.getAllAlerts().find(...)` in the recovery branch of `runCheck`. -/
def resolveFirstAlert (mid now : Nat) : List Alert → List Alert
  | [] => []
  | a :: rest =>
      if a.monitorId = mid ∧ a.status = .active then
        { a with status := .resolved, resolvedAt := some now } :: rest
      else a :: resolveFirstAlert mid now rest

/-- Number of active alerts recorded for a monitor. -/
def activeAlertCount (l : List Alert) (mid : Nat) : Nat :=
  l.countP (fun a => a.monitorId == mid && a.status == AStatus.active)

/-- The state-changing part of one `runCheck` completion: previous status is
read before `updateStatus`; notifications themselves do not change the
collections, but the recovery branch resolves the first active alert. -/
def runCheckStep (st : MState) (mid : Nat) (r : CheckResult)
    (now : Nat) : MState :=
  let previousStatus := stStatus st mid
  let st1 := updateStatus st mid r now
  if previousStatus ≠ r.status.toP then
    if r.status = UpDown.down then st1
    else if r.status = UpDown.up ∧ previousStatus = PStatus.down then
      match st1.alerts.find?
          (fun a => a.monitorId == mid && a.status == AStatus.active) with
      | some _ => { st1 with alerts := resolveFirstAlert mid now st1.alerts }
      | none => st1
    else st1
  else st1

theorem resolveFirstAlert_of_none (mid now : Nat) (l : List Alert)
    (h : l.find? (fun a => a.monitorId == mid && a.status == AStatus.active)
        = none) :
    resolveFirstAlert mid now l = l := by
  induction l with
  | nil => rfl
  | cons a rest ih =>
      rw [List.find?_cons] at h
      rcases hc : (a.monitorId == mid && a.status == AStatus.active)
          with _ | _
      · rw [hc] at h
        simp only [cond_false] at h
        have hna : ¬(a.monitorId = mid ∧ a.status = AStatus.active) := by
          simpa using hc
        simp [resolveFirstAlert, hna, ih h]
      · rw [hc] at h
        simp at h

theorem countP_resolveFirstAlert (mid now : Nat) (l : List Alert)
    (h : l.countP
        (fun a => a.monitorId == mid && a.status == AStatus.active) ≠ 0) :
    (resolveFirstAlert mid now l).countP
        (fun a => a.monitorId == mid && a.status == AStatus.active) =
      l.countP (fun a => a.monitorId == mid && a.status == AStatus.active)
        - 1 := by
  induction l with
  | nil => simp [List.countP_nil] at h
  | cons a rest ih =>
      rcases hc : (a.monitorId == mid && a.status == AStatus.active)
          with _ | _
      · have hna : ¬(a.monitorId = mid ∧ a.status = AStatus.active) := by
          simpa using hc
        have h2 : rest.countP
            (fun a => a.monitorId == mid && a.status == AStatus.active)
              ≠ 0 := by
          simpa [List.countP_cons, hc] using h
        simp [resolveFirstAlert, hna, List.countP_cons, hc, ih h2]
      · have hya : a.monitorId = mid ∧ a.status = AStatus.active := by
          simpa using hc
        simp [resolveFirstAlert, hya, List.countP_cons, hc]

/-- C4, counterexample: with auto-resolve disabled, the endpoint DOWN with
one ongoing incident and one active alert, processing the DOWN to UP
transition through `runCheck` leaves no active alert for the endpoint: the
recovery-notification branch resolved it although auto-resolve is off (the
ongoing incident indeed stays unresolved). -/
theorem c4_counterexample :
    (runFrom (initState ⟨3, false⟩) 0 0 [upR, downR]).settings.autoResolve
        = false ∧
    (∃ a ∈ (runFrom (initState ⟨3, false⟩) 0 0 [upR, downR]).alerts,
      a.monitorId = 0 ∧ a.status = AStatus.active) ∧
    (∀ a ∈ (runCheckStep (runFrom (initState ⟨3, false⟩) 0 0 [upR, downR])
        0 upR 5).alerts, a.monitorId = 0 → a.status ≠ AStatus.active) ∧
    ongoingCount (runCheckStep (runFrom (initState ⟨3, false⟩) 0 0
        [upR, downR]) 0 upR 5).incidents 0 = 1 := by decide

/-- C4 (amended): processing a DOWN to UP transition through `runCheck`
behaves as claimed when auto-resolve is enabled: the endpoint's (unique)
ongoing incident is marked resolved with resolve time and duration, and
every active alert of the endpoint is resolved.  With auto-resolve
disabled, the ongoing incidents are untouched (the incident does not
resolve), but the recovery-notification branch of `runCheck` still
resolves the first active alert of the endpoint, so the number of active
alerts drops by one; only when the endpoint has no active alert do the
alerts stay unchanged. -/
theorem c4_amended (st : MState) (mid : Nat) (r : CheckResult) (now : Nat)
    (h : stStatus st mid = PStatus.down) (hr : r.status = UpDown.up) :
    (st.settings.autoResolve = true → ongoingCount st.incidents mid = 1 →
      ongoingCount (runCheckStep st mid r now).incidents mid = 0 ∧
      (∃ inc ∈ (runCheckStep st mid r now).incidents,
        inc.monitorId = mid ∧ inc.status = IStatus.resolved ∧
        inc.resolvedAt = some now ∧
        inc.duration = some (now - inc.startedAt)) ∧
      (∀ a ∈ (runCheckStep st mid r now).alerts,
        a.monitorId = mid → a.status ≠ AStatus.active) ∧
      (∀ a ∈ st.alerts, a.monitorId = mid → a.status = AStatus.active →
        ({ a with status := AStatus.resolved, resolvedAt := some now }
            : Alert) ∈ (runCheckStep st mid r now).alerts)) ∧
    (st.settings.autoResolve = false →
      (runCheckStep st mid r now).incidents = st.incidents ∧
      activeAlertCount (runCheckStep st mid r now).alerts mid =
        activeAlertCount st.alerts mid - 1 ∧
      (activeAlertCount st.alerts mid = 0 →
        (runCheckStep st mid r now).alerts = st.alerts)) := by
  constructor
  · intro ha h1
    obtain ⟨hc0, hcinc, hcall, hcmem⟩ :=
      (updateStatus_down_up_resolution st mid r now h hr).1 ha h1
    have hfn : (updateStatus st mid r now).alerts.find?
        (fun a => a.monitorId == mid && a.status == AStatus.active)
          = none := by
      rw [List.find?_eq_none]
      intro a hmem
      simp only [Bool.and_eq_true, beq_iff_eq, not_and]
      intro hpq
      exact hcall a hmem hpq
    have hrcs : runCheckStep st mid r now = updateStatus st mid r now := by
      simp [runCheckStep, h, hr, hfn, UpDown.toP]
    rw [hrcs]
    exact ⟨hc0, hcinc, hcall, hcmem⟩
  · intro ha
    have hupd : updateStatus st mid r now = withNewStatus st mid r now := by
      rw [updateStatus_eq_down_up st mid r now h hr, if_neg (by simp [ha])]
    cases hf : st.alerts.find?
        (fun a => a.monitorId == mid && a.status == AStatus.active) with
    | none =>
        have hrcs : runCheckStep st mid r now = withNewStatus st mid r now := by
          simp [runCheckStep, h, hr, hupd, withNewStatus_alerts, hf,
            UpDown.toP]
        have h0 : activeAlertCount st.alerts mid = 0 := by
          simpa [activeAlertCount] using
            (find?_eq_none_iff_countP _ _).mp hf
        rw [hrcs]
        exact ⟨withNewStatus_incidents .., by
          rw [withNewStatus_alerts, h0], fun _ => withNewStatus_alerts ..⟩
    | some a =>
        have hnz : st.alerts.countP
            (fun a => a.monitorId == mid && a.status == AStatus.active)
              ≠ 0 := countP_ne_zero_of_find? hf
        have hrcs : runCheckStep st mid r now =
            { withNewStatus st mid r now with
                alerts := resolveFirstAlert mid now st.alerts } := by
          simp [runCheckStep, h, hr, hupd, withNewStatus_alerts, hf,
            UpDown.toP]
        rw [hrcs]
        refine ⟨withNewStatus_incidents st mid r now, ?_, ?_⟩
        · simpa [activeAlertCount] using
            countP_resolveFirstAlert mid now st.alerts hnz
        · intro h0
          exact absurd (by simpa [activeAlertCount] using h0) hnz

/-- Witness for C4 (amended) at a concrete DOWN state with one ongoing
incident, auto-resolve enabled, receiving an UP sample. -/
theorem c4_witness :
    (stDownW.settings.autoResolve = true →
      ongoingCount stDownW.incidents 0 = 1 →
        ongoingCount (runCheckStep stDownW 0 upR 7).incidents 0 = 0 ∧
        (∃ inc ∈ (runCheckStep stDownW 0 upR 7).incidents,
          inc.monitorId = 0 ∧ inc.status = IStatus.resolved ∧
          inc.resolvedAt = some 7 ∧
          inc.duration = some (7 - inc.startedAt)) ∧
        (∀ a ∈ (runCheckStep stDownW 0 upR 7).alerts,
          a.monitorId = 0 → a.status ≠ AStatus.active) ∧
        (∀ a ∈ stDownW.alerts, a.monitorId = 0 → a.status = AStatus.active →
          ({ a with status := AStatus.resolved, resolvedAt := some 7 }
              : Alert) ∈ (runCheckStep stDownW 0 upR 7).alerts)) ∧
    (stDownW.settings.autoResolve = false →
      (runCheckStep stDownW 0 upR 7).incidents = stDownW.incidents ∧
      activeAlertCount (runCheckStep stDownW 0 upR 7).alerts 0 =
        activeAlertCount stDownW.alerts 0 - 1 ∧
      (activeAlertCount stDownW.alerts 0 = 0 →
        (runCheckStep stDownW 0 upR 7).alerts = stDownW.alerts)) :=
  c4_amended stDownW 0 upR 7 (by decide) rfl

end Pulse
